import Mathlib

/-!
Shallow embedding of `src/events/fetch_hackernews_step.py` (job-aggregator).

Strings are modelled as Lean `String` / `List Char`; Python string
operations (`re.sub`, `str.strip`, `str.split`, slicing) are embedded as
executable functions below.  Absent dict keys are modelled with `Option`.
The async HTTP fetches of `handler` are modelled by an environment that
maps each requested item id to an `Except`-valued fetch outcome: a Python
exception raised while fetching or processing one comment corresponds to
an `Except.error` outcome for that comment.
-/

namespace JobAggregator

/-- Python `str.strip` whitespace set (ASCII part). -/
def isPySpace (c : Char) : Bool :=
  c = ' ' || c = '\t' || c = '\n' || c = '\r' || c = '\x0b' || c = '\x0c'

/-- Python `str.strip()`: drop leading and trailing whitespace. -/
def pyStrip (l : List Char) : List Char :=
  ((l.dropWhile isPySpace).reverse.dropWhile isPySpace).reverse

/-- Scanner for `re.sub(r"<[^>]+>", repl, ·)`.  The second argument is
the open-tag buffer: `none` while outside a candidate match, and
`some buf` (reversed characters consumed so far) after an unresolved
`<`.  A match of the regex is a `<`, then at least one character other
than `>` (the class `[^>]` also matches a nested `<`), then the first
following `>`; each match is replaced by `repl`, everything else is kept
verbatim. -/
def stripTagsAux (repl : List Char) : List Char → Option (List Char) → List Char
  | [], none => []
  | [], some buf => '<' :: buf.reverse
  | c :: rest, none =>
    if c = '<' then stripTagsAux repl rest (some [])
    else c :: stripTagsAux repl rest none
  | c :: rest, some buf =>
    if c = '>' then
      if buf = [] then '<' :: '>' :: stripTagsAux repl rest none
      else repl ++ stripTagsAux repl rest none
    else stripTagsAux repl rest (some (c :: buf))

/-- Python `re.sub(r"<[^>]+>", repl, ·)`: each match of the regex
`<[^>]+>` (a `<`, at least one non-`>` character, then the first
following `>`) is replaced by `repl`; unmatched characters are kept. -/
def stripTags (repl : List Char) (l : List Char) : List Char :=
  stripTagsAux repl l none

/-- Characters of the original text before its first occurrence of the
substring `<p>` — this is `text.split("<p>")[0]` in the source (Python
`str.split` on a non-empty separator never returns an empty list, so the
source's `if not lines: return None` branch is unreachable). -/
def takeUntilPara : List Char → List Char
  | '<' :: 'p' :: '>' :: _ => []
  | c :: rest => c :: takeUntilPara rest
  | [] => []

/-- Python `str.split("|")`: split on every `|`, keeping empty pieces;
always returns at least one piece. -/
def splitOnPipe : List Char → List (List Char)
  | [] => [[]]
  | c :: rest =>
    if c = '|' then [] :: splitOnPipe rest
    else
      match splitOnPipe rest with
      | [] => [[c]]
      | h :: t => (c :: h) :: t

def emptyStr : String := ""
def unknownCompany : String := "Unknown Company"
def defaultTitle : String := "Software Engineer"
def remoteDefault : String := "Remote"
def hnUrlBase : String := "https://news.ycombinator.com/item?id="
def noneStr : String := "None"

/-- A raw HackerNews comment record as consumed by `parse_hn_comment`:
dict keys `id`, `text`, `time`, `deleted` (absent keys are `none` /
`false`). -/
structure Comment where
  id : Option Int
  text : Option String
  time : Option Int
  deleted : Bool
deriving DecidableEq

/-- A parsed job posting as returned by `parse_hn_comment`. -/
structure Posting where
  id : String
  company : String
  title : String
  location : String
  description : String
  url : String
  posted_at : Int
deriving DecidableEq

/-- Python `str(comment.get("id"))`: `str(None)` is the string `None`. -/
def idStr (c : Comment) : String :=
  match c.id with
  | some n => toString n
  | none => noneStr

/-- `clean_text = re.sub(r"<[^>]+>", " ", text).strip()`. -/
def cleanChars (text : String) : List Char :=
  pyStrip (stripTags [' '] text.data)

def cleanText (text : String) : String :=
  String.mk (cleanChars text)

/-- `first_line = re.sub(r"<[^>]+>", "", lines[0]).strip()` where
`lines = text.split("<p>")`. -/
def headerChars (text : String) : List Char :=
  pyStrip (stripTags [] (takeUntilPara text.data))

/-- `parts = [p.strip() for p in first_line.split("|")]`. -/
def headerFields (text : String) : List (List Char) :=
  (splitOnPipe (headerChars text)).map pyStrip

/-- Embedding of `parse_hn_comment` (source lines 33–65).  `now` is the
value of `int(datetime.now(timezone.utc).timestamp())` at the call. -/
def parse_hn_comment (now : Int) (c : Comment) : Option Posting :=
  let text := c.text.getD emptyStr
  if text = emptyStr then none
  else
    let clean := cleanChars text
    let parts := headerFields text
    if 2 ≤ parts.length then
      some
        { id := idStr c
        , company := String.mk ((if parts.getD 0 [] ≠ [] then parts.getD 0 [] else unknownCompany.data).take 100)
        , title := String.mk ((if 1 < parts.length ∧ parts.getD 1 [] ≠ [] then parts.getD 1 [] else defaultTitle.data).take 200)
        , location := String.mk ((if 2 < parts.length ∧ parts.getD 2 [] ≠ [] then parts.getD 2 [] else remoteDefault.data).take 100)
        , description := String.mk (clean.take 500)
        , url := hnUrlBase ++ idStr c
        , posted_at := c.time.getD now }
    else none

/-! ## The `handler` boundary (source lines 68–146)

The async HTTP calls are modelled by an `Env` mapping item ids to fetch
outcomes; `Except.error` stands for a raised exception (caught by the
source's per-comment / per-thread `try/except` blocks), `.ok none` for a
falsy JSON body, `.ok (some _)` for a successful decode.  The key-value
store `context.state` is a function from (namespace, key) to an optional
status record; emitted `normalize-job` events are collected in a list. -/

def hnStr : String := "hackernews"
def allStr : String := "all"
def sourcesStr : String := "sources"
def successStr : String := "success"
def errorStr : String := "error"
def noJobsStr : String := "No jobs found"

/-- `WHO_IS_HIRING_THREADS` (source lines 26–30). -/
def WHO_IS_HIRING_THREADS : List Int := [42575537, 42057092, 41709301]

/-- `WHO_IS_HIRING_THREADS[:1]` — the thread ids the handler iterates. -/
def fetchedThreadIds : List Int := WHO_IS_HIRING_THREADS.take 1

/-- The decoded JSON of a thread item: `kids` is `none` when the key
`"kids"` is absent. -/
structure Thread where
  kids : Option (List Int)
deriving DecidableEq

/-- The record written by `context.state.set` (source lines 139–144). -/
structure StatusRecord where
  lastFetch : String
  jobCount : Nat
  status : String
  error : Option String
deriving DecidableEq

/-- The key-value state store: namespace → key → stored record. -/
def StateStore : Type := String → String → Option StatusRecord

/-- `context.state.set ns key v`. -/
def setState (st : StateStore) (ns key : String) (v : StatusRecord) : StateStore :=
  fun a b => if a = ns ∧ b = key then some v else st a b

/-- The run environment: fetch outcomes per item id, the current time as
a Unix timestamp (for `posted_at`) and as an ISO string (for
`lastFetch`). -/
structure Env where
  threadFetch : Int → Except String (Option Thread)
  commentFetch : Int → Except String (Option Comment)
  now : Int
  nowIso : String

/-- One iteration of the per-comment loop (source lines 100–125): a
fetch failure or falsy body yields nothing; otherwise the comment is
parsed when it has truthy text and is not deleted (line 108), and the
parsed posting, if any, is emitted. -/
def processComment (now : Int) (res : Except String (Option Comment)) : Option Posting :=
  match res with
  | .error _ => none
  | .ok none => none
  | .ok (some c) =>
    if c.text.getD emptyStr ≠ emptyStr ∧ c.deleted = false then
      parse_hn_comment now c
    else none

/-- The postings emitted while looping over a list of per-comment fetch
outcomes. -/
def emittedJobs (now : Int) (results : List (Except String (Option Comment))) :
    List Posting :=
  results.filterMap (processComment now)

/-- One iteration of the per-thread loop (source lines 79–136): returns
the postings emitted for this thread and the list of comment ids fetched
(`thread["kids"][:30]`, line 98).  A thread fetch failure or a thread
without `kids` contributes nothing (lines 88–90, 132–136). -/
def processThread (env : Env) (tid : Int) : List Posting × List Int :=
  match env.threadFetch tid with
  | .error _ => ([], [])
  | .ok none => ([], [])
  | .ok (some t) =>
    match t.kids with
    | none => ([], [])
    | some kids =>
      let ids := kids.take 30
      (emittedJobs env.now (ids.map env.commentFetch), ids)

/-- The observable outcome of one handler run: the emitted `rawJob`
payloads in order, the resulting state store, and the thread / comment
item ids that were fetched. -/
structure RunResult where
  emits : List Posting
  store : StateStore
  threadReqs : List Int
  commentReqs : List Int

/-- Embedding of `handler` (source lines 68–146).  `src` is
`input_data.get("source", "")`. -/
def handlerRun (src : String) (env : Env) (st : StateStore) : RunResult :=
  if src ≠ hnStr ∧ src ≠ allStr then
    { emits := [], store := st, threadReqs := [], commentReqs := [] }
  else
    let results := fetchedThreadIds.map (processThread env)
    let jobs := (results.map Prod.fst).flatten
    let creqs := (results.map Prod.snd).flatten
    let n := jobs.length
    { emits := jobs
    , store := setState st sourcesStr hnStr
        { lastFetch := env.nowIso
        , jobCount := n
        , status := if 0 < n then successStr else errorStr
        , error := if 0 < n then none else some noJobsStr }
    , threadReqs := fetchedThreadIds
    , commentReqs := creqs }

/-! ## Concrete inputs used in counterexamples and witnesses -/

/-- The spec's example comment text, a single paragraph wrapped in
`<p>…</p>`. -/
def acmeText : String := "<p>Acme Corp | Backend Engineer | Remote | We build things</p>"

def acmeComment : Comment :=
  { id := some 1, text := some acmeText, time := some 100, deleted := false }

/-- The same header with no `<p>` markup before it. -/
def acmePlainText : String := "Acme Corp | Backend Engineer | Remote | We build things"

def acmePlainComment : Comment :=
  { id := some 1, text := some acmePlainText, time := some 100, deleted := false }

def acmePlainPosting : Posting :=
  { id := toString (1 : Int)
  , company := "Acme Corp"
  , title := "Backend Engineer"
  , location := "Remote"
  , description := acmePlainText
  , url := hnUrlBase ++ toString (1 : Int)
  , posted_at := 100 }

/-- A comment whose header splits into two fields of which only one is
non-empty. -/
def pipeOnlyComment : Comment :=
  { id := some 2, text := some ("a|"), time := some 5, deleted := false }

/-- Number of non-empty trimmed fields in the header of a comment text. -/
def nonEmptyFieldCount (text : String) : Nat :=
  ((headerFields text).filter (fun p => !p.isEmpty)).length

/-! ## Shared extraction lemma for `parse_hn_comment` -/

/-- Unfolding of a successful parse: the text is non-empty, the header
has at least two pipe-separated fields, and the posting is the record
built at source lines 55–63. -/
theorem parse_eq_some_iff (now : Int) (c : Comment) (p : Posting) :
    parse_hn_comment now c = some p ↔
      c.text.getD emptyStr ≠ emptyStr ∧
      2 ≤ (headerFields (c.text.getD emptyStr)).length ∧
      p = { id := idStr c
          , company := String.mk ((if (headerFields (c.text.getD emptyStr)).getD 0 [] ≠ [] then (headerFields (c.text.getD emptyStr)).getD 0 [] else unknownCompany.data).take 100)
          , title := String.mk ((if 1 < (headerFields (c.text.getD emptyStr)).length ∧ (headerFields (c.text.getD emptyStr)).getD 1 [] ≠ [] then (headerFields (c.text.getD emptyStr)).getD 1 [] else defaultTitle.data).take 200)
          , location := String.mk ((if 2 < (headerFields (c.text.getD emptyStr)).length ∧ (headerFields (c.text.getD emptyStr)).getD 2 [] ≠ [] then (headerFields (c.text.getD emptyStr)).getD 2 [] else remoteDefault.data).take 100)
          , description := String.mk ((cleanChars (c.text.getD emptyStr)).take 500)
          , url := hnUrlBase ++ idStr c
          , posted_at := c.time.getD now } := by
  simp only [parse_hn_comment]
  by_cases h1 : c.text.getD emptyStr = emptyStr
  · simp [h1]
  · rw [if_neg h1]
    by_cases h2 : 2 ≤ (headerFields (c.text.getD emptyStr)).length
    · rw [if_pos h2]
      simp only [Option.some.injEq]
      constructor
      · intro h
        exact ⟨h1, h2, h.symm⟩
      · intro h
        exact h.2.2.symm
    · rw [if_neg h2]
      constructor
      · intro h
        exact Option.noConfusion h
      · intro h
        exact absurd h.2.1 h2

/-! ## C1 -/

/-- C1: the claim asserts that the comment whose text is
`"<p>Acme Corp | Backend Engineer | Remote | We build things</p>"`
parses to a posting with company `Acme Corp`, title `Backend Engineer`,
location `Remote` and the full text as description.  It is false: the
code takes `text.split("<p>")[0]`, the part of the text *before* the
first `<p>`, which here is empty, so the header has a single empty field
and the comment is rejected. -/
theorem C1_counterexample : parse_hn_comment 0 acmeComment = none := by decide

/-- C1 (amended): for the same header without a leading `<p>` marker —
text `"Acme Corp | Backend Engineer | Remote | We build things"` —
`parse_hn_comment` returns a posting with company `Acme Corp`, title
`Backend Engineer`, location `Remote`, and the whole text as
description. -/
theorem C1_amended_parse :
    parse_hn_comment 0 acmePlainComment = some acmePlainPosting := by decide

/-! ## C2 -/

/-- C2: the claim says `parse_hn_comment` returns `none` iff the text is
empty/absent or the header yields fewer than 2 *non-empty* fields.  It
is false: for the text `"a|"` the header has only one non-empty field,
yet the code (which counts all fields, empty ones included, at source
line 50) accepts the comment. -/
theorem C2_counterexample :
    parse_hn_comment 0 pipeOnlyComment ≠ none ∧
    pipeOnlyComment.text.getD emptyStr ≠ emptyStr ∧
    nonEmptyFieldCount (pipeOnlyComment.text.getD emptyStr) < 2 := by decide

/-- C2 (amended): `parse_hn_comment` returns `none` iff the text is
empty or absent, or the first pipe-delimited segment (text before the
first `<p>`, tags removed, trimmed) splits on `|` into fewer than 2
fields, counting empty fields. -/
theorem C2_none_iff (now : Int) (c : Comment) :
    parse_hn_comment now c = none ↔
      (c.text.getD emptyStr = emptyStr ∨
        (headerFields (c.text.getD emptyStr)).length < 2) := by
  simp only [parse_hn_comment]
  by_cases h1 : c.text.getD emptyStr = emptyStr
  · simp [h1]
  · rw [if_neg h1]
    by_cases h2 : 2 ≤ (headerFields (c.text.getD emptyStr)).length
    · rw [if_pos h2]
      constructor
      · intro h
        exact Option.noConfusion h
      · intro h
        rcases h with h | h
        · exact absurd h h1
        · exact absurd h (by omega)
    · rw [if_neg h2]
      exact ⟨fun _ => Or.inr (by omega), fun _ => rfl⟩

/-! ## C3 -/

/-- The company assigned by source line 51 followed by the truncation of
line 57: field 0, or `"Unknown Company"` when that field is blank. -/
def companyOf (c : Comment) : String :=
  String.mk ((if (headerFields (c.text.getD emptyStr)).getD 0 [] ≠ []
      then (headerFields (c.text.getD emptyStr)).getD 0 []
      else unknownCompany.data).take 100)

/-- The title assigned by source line 52 followed by the truncation of
line 58: field 1, or `"Software Engineer"` when that field is blank (on
accepted comments field 1 always exists, so the `len(parts) > 1` guard
of line 52 is redundant and omitted here). -/
def titleOf (c : Comment) : String :=
  String.mk ((if (headerFields (c.text.getD emptyStr)).getD 1 [] ≠ []
      then (headerFields (c.text.getD emptyStr)).getD 1 []
      else defaultTitle.data).take 200)

/-- The location assigned by source line 53 followed by the truncation
of line 59: field 2, or `"Remote"` when that field is absent or
blank. -/
def locationOf (c : Comment) : String :=
  String.mk ((if 2 < (headerFields (c.text.getD emptyStr)).length ∧ (headerFields (c.text.getD emptyStr)).getD 2 [] ≠ []
      then (headerFields (c.text.getD emptyStr)).getD 2 []
      else remoteDefault.data).take 100)

/-- C3: on every accepted comment the trimmed header fields map
positionally onto the posting — field 0 to company (default
`"Unknown Company"` when blank), field 1 to title (default
`"Software Engineer"` when blank), field 2 to location (default
`"Remote"` when absent or blank). -/
theorem C3_field_map (now : Int) (c : Comment) (p : Posting)
    (h : parse_hn_comment now c = some p) :
    p.company = companyOf c ∧ p.title = titleOf c ∧ p.location = locationOf c := by
  obtain ⟨h1, h2, rfl⟩ := (parse_eq_some_iff now c p).mp h
  have hlen : 1 < (headerFields (c.text.getD emptyStr)).length := by omega
  refine ⟨rfl, ?_, rfl⟩
  simp only [titleOf, hlen, true_and]

/-- A comment whose header is just `"|"`: both fields blank, field 2
absent, so all three defaults fire. -/
def defaultsComment : Comment :=
  { id := some 7, text := some ("|"), time := some 9, deleted := false }

def defaultsPosting : Posting :=
  { id := toString (7 : Int)
  , company := unknownCompany
  , title := defaultTitle
  , location := remoteDefault
  , description := "|"
  , url := hnUrlBase ++ toString (7 : Int)
  , posted_at := 9 }

theorem C3_witness :
    defaultsPosting.company = companyOf defaultsComment ∧
    defaultsPosting.title = titleOf defaultsComment ∧
    defaultsPosting.location = locationOf defaultsComment :=
  C3_field_map 9 defaultsComment defaultsPosting (by decide)

/-! ## C4 -/

/-- C4: every posting built by `parse_hn_comment` satisfies the length
bounds company ≤ 100, title ≤ 200, location ≤ 100, description ≤ 500
(silent truncation, source lines 57–60); and whenever the
markup-stripped text has exactly 600 characters the description has
exactly 500. -/
theorem C4_truncation :
    (∀ (now : Int) (c : Comment) (p : Posting), parse_hn_comment now c = some p →
        p.company.length ≤ 100 ∧ p.title.length ≤ 200 ∧
        p.location.length ≤ 100 ∧ p.description.length ≤ 500) ∧
    (∀ (now : Int) (c : Comment) (p : Posting), parse_hn_comment now c = some p →
        (cleanText (c.text.getD emptyStr)).length = 600 →
        p.description.length = 500) := by
  constructor
  · intro now c p h
    obtain ⟨h1, h2, rfl⟩ := (parse_eq_some_iff now c p).mp h
    refine ⟨?_, ?_, ?_, ?_⟩ <;>
      simp only [String.length_mk] <;> exact List.length_take_le _ _
  · intro now c p h h600
    obtain ⟨h1, h2, rfl⟩ := (parse_eq_some_iff now c p).mp h
    simp only [cleanText, String.length_mk] at h600
    simp only [String.length_mk, List.length_take]
    omega

/-- A comment whose markup-stripped text has exactly 600 characters
(598 `x`s, a `|`, and a `y`). -/
def cw600text : String := String.mk (List.replicate 598 'x' ++ [ '|', 'y' ])

def cw600 : Comment :=
  { id := some 3, text := some cw600text, time := some 77, deleted := false }

def p600 : Posting :=
  { id := toString (3 : Int)
  , company := String.mk (List.replicate 100 'x')
  , title := String.mk [ 'y' ]
  , location := remoteDefault
  , description := String.mk (List.replicate 500 'x')
  , url := hnUrlBase ++ toString (3 : Int)
  , posted_at := 77 }

set_option maxRecDepth 8192 in
theorem C4_witness :
    (p600.company.length ≤ 100 ∧ p600.title.length ≤ 200 ∧
      p600.location.length ≤ 100 ∧ p600.description.length ≤ 500) ∧
    p600.description.length = 500 :=
  ⟨(C4_truncation.1 77 cw600 p600 (by decide)),
   (C4_truncation.2 77 cw600 p600 (by decide) (by decide))⟩

/-! ## C10 -/

theorem mk_take_ne_empty (l : List Char) (n : Nat) (hl : l ≠ []) (hn : n ≠ 0) :
    String.mk (l.take n) ≠ emptyStr := by
  intro hcontra
  have hd : l.take n = [] := congrArg String.data hcontra
  rw [List.take_eq_nil_iff] at hd
  rcases hd with h | h
  · exact hn h
  · exact hl h

/-- C10: every posting built by `parse_hn_comment` has non-empty
company, title and location (the blank-field defaults guarantee this),
and its url is exactly `"https://news.ycombinator.com/item?id="`
followed by the comment id stored in its id field. -/
theorem C10_invariants (now : Int) (c : Comment) (p : Posting)
    (h : parse_hn_comment now c = some p) :
    p.company ≠ emptyStr ∧ p.title ≠ emptyStr ∧ p.location ≠ emptyStr ∧
    p.url = hnUrlBase ++ p.id := by
  obtain ⟨h1, h2, rfl⟩ := (parse_eq_some_iff now c p).mp h
  refine ⟨?_, ?_, ?_, rfl⟩
  · apply mk_take_ne_empty _ _ _ (by omega)
    by_cases hf : (headerFields (c.text.getD emptyStr)).getD 0 [] ≠ []
    · rw [if_pos hf]
      exact hf
    · rw [if_neg hf]
      decide
  · apply mk_take_ne_empty _ _ _ (by omega)
    by_cases hc : 1 < (headerFields (c.text.getD emptyStr)).length ∧ (headerFields (c.text.getD emptyStr)).getD 1 [] ≠ []
    · rw [if_pos hc]
      exact hc.2
    · rw [if_neg hc]
      decide
  · apply mk_take_ne_empty _ _ _ (by omega)
    by_cases hc : 2 < (headerFields (c.text.getD emptyStr)).length ∧ (headerFields (c.text.getD emptyStr)).getD 2 [] ≠ []
    · rw [if_pos hc]
      exact hc.2
    · rw [if_neg hc]
      decide

theorem C10_witness :
    acmePlainPosting.company ≠ emptyStr ∧ acmePlainPosting.title ≠ emptyStr ∧
    acmePlainPosting.location ≠ emptyStr ∧
    acmePlainPosting.url = hnUrlBase ++ acmePlainPosting.id :=
  C10_invariants 0 acmePlainComment acmePlainPosting (by decide)

/-! ## C6 -/

/-- C6: a failed comment fetch (a raised exception, caught and logged by
the per-comment `try/except` at source lines 101–125) contributes no
posting, and every comment after it is still processed: the emissions of
the whole run are those of the comments before the failure followed by
those of the comments after it. -/
theorem C6_failure_isolated (now : Int) (xs ys : List (Except String (Option Comment)))
    (err : String) :
    emittedJobs now (xs ++ Except.error err :: ys) =
      emittedJobs now xs ++ emittedJobs now ys := by
  simp [emittedJobs, List.filterMap_append, processComment]

/-! ## C5 -/

theorem parse_isSome_now_irrelevant (n1 n2 : Int) (c : Comment) :
    (parse_hn_comment n1 c).isSome = (parse_hn_comment n2 c).isSome := by
  simp only [parse_hn_comment]
  by_cases h1 : c.text.getD emptyStr = emptyStr
  · simp [h1]
  · rw [if_neg h1, if_neg h1]
    by_cases h2 : 2 ≤ (headerFields (c.text.getD emptyStr)).length
    · rw [if_pos h2, if_pos h2]
      rfl
    · rw [if_neg h2, if_neg h2]

theorem parse_time_fixed (n1 n2 : Int) (c : Comment) (ht : c.time ≠ none) :
    parse_hn_comment n1 c = parse_hn_comment n2 c := by
  rcases htv : c.time with _ | t
  · exact absurd htv ht
  · simp only [parse_hn_comment, htv, Option.getD_some]

theorem processComment_isSome (n1 n2 : Int) (r : Except String (Option Comment)) :
    (processComment n1 r).isSome = (processComment n2 r).isSome := by
  rcases r with e | oc
  · rfl
  · rcases oc with _ | c
    · rfl
    · simp only [processComment]
      by_cases hc : c.text.getD emptyStr ≠ emptyStr ∧ c.deleted = false
      · rw [if_pos hc, if_pos hc]
        exact parse_isSome_now_irrelevant n1 n2 c
      · rw [if_neg hc, if_neg hc]

theorem processComment_time (n1 n2 : Int) (r : Except String (Option Comment))
    (h : ∀ c : Comment, r = Except.ok (some c) → c.time ≠ none) :
    processComment n1 r = processComment n2 r := by
  rcases r with e | oc
  · rfl
  · rcases oc with _ | c
    · rfl
    · simp only [processComment]
      by_cases hc : c.text.getD emptyStr ≠ emptyStr ∧ c.deleted = false
      · rw [if_pos hc, if_pos hc]
        exact parse_time_fixed n1 n2 c (h c rfl)
      · rw [if_neg hc, if_neg hc]

theorem emittedJobs_length_now_irrelevant (n1 n2 : Int) :
    ∀ rs : List (Except String (Option Comment)),
      (emittedJobs n1 rs).length = (emittedJobs n2 rs).length := by
  intro rs
  induction rs with
  | nil => rfl
  | cons r rest ih =>
    have hs := processComment_isSome n1 n2 r
    simp only [emittedJobs, List.filterMap_cons] at ih ⊢
    rcases hp1 : processComment n1 r with _ | p1 <;>
      rcases hp2 : processComment n2 r with _ | p2
    · simpa using ih
    · rw [hp1, hp2] at hs
      exact absurd hs (by simp)
    · rw [hp1, hp2] at hs
      exact absurd hs (by simp)
    · simpa using ih

theorem emittedJobs_time_fixed (n1 n2 : Int) :
    ∀ rs : List (Except String (Option Comment)),
      (∀ r ∈ rs, ∀ c : Comment, r = Except.ok (some c) → c.time ≠ none) →
      emittedJobs n1 rs = emittedJobs n2 rs := by
  intro rs
  induction rs with
  | nil => intro _; rfl
  | cons r rest ih =>
    intro h
    have ih2 := ih (fun r2 hr2 c hc => h r2 (List.mem_cons_of_mem _ hr2) c hc)
    simp only [emittedJobs, List.filterMap_cons] at ih2 ⊢
    rw [processComment_time n1 n2 r (fun c hc => h r (List.mem_cons_self _ _) c hc), ih2]

theorem processThread_snd_now_irrelevant (tf : Int → Except String (Option Thread))
    (cf : Int → Except String (Option Comment)) (t1 t2 : Int) (iso1 iso2 : String)
    (tid : Int) :
    (processThread ⟨tf, cf, t1, iso1⟩ tid).2 = (processThread ⟨tf, cf, t2, iso2⟩ tid).2 ∧
    (processThread ⟨tf, cf, t1, iso1⟩ tid).1.length =
      (processThread ⟨tf, cf, t2, iso2⟩ tid).1.length := by
  rcases h : tf tid with e | ot
  · simp [processThread, h]
  · rcases ot with _ | t
    · simp [processThread, h]
    · rcases hk : t.kids with _ | kids
      · simp [processThread, h, hk]
      · simp only [processThread, h, hk]
        exact ⟨trivial, emittedJobs_length_now_irrelevant t1 t2 _⟩

theorem processThread_fst_time_fixed (tf : Int → Except String (Option Thread))
    (cf : Int → Except String (Option Comment)) (t1 t2 : Int) (iso1 iso2 : String)
    (tid : Int)
    (h : ∀ (i : Int) (c : Comment), cf i = Except.ok (some c) → c.time ≠ none) :
    (processThread ⟨tf, cf, t1, iso1⟩ tid).1 = (processThread ⟨tf, cf, t2, iso2⟩ tid).1 := by
  rcases hf : tf tid with e | ot
  · simp [processThread, hf]
  · rcases ot with _ | t
    · simp [processThread, hf]
    · rcases hk : t.kids with _ | kids
      · simp [processThread, hf, hk]
      · simp only [processThread, hf, hk]
        apply emittedJobs_time_fixed
        intro r hr c hc
        obtain ⟨i, hi, rfl⟩ := List.mem_map.mp hr
        exact h i c hc

/-- Emissions of a handler run with a matching source: the postings of
the single processed thread. -/
theorem handlerRun_emits (src : String) (env : Env) (st : StateStore)
    (h : ¬(src ≠ hnStr ∧ src ≠ allStr)) :
    (handlerRun src env st).emits = (processThread env 42575537).1 := by
  simp [handlerRun, h, fetchedThreadIds, WHO_IS_HIRING_THREADS]

/-- C5: the claim says the emit set is a pure function of the fetched
comment set, not depending on when the run happens.  It is false:
`posted_at` defaults to the current time (source line 62), so a comment
without a `time` field is emitted with a run-time-dependent posting.
Here two runs over identical fetched data at times 1 and 2 emit
different records. -/
def noTimeComment : Comment :=
  { id := some 4, text := some ("B Corp | Dev"), time := none, deleted := false }

def tfW : Int → Except String (Option Thread) :=
  fun _ => Except.ok (some { kids := some [4] })

def cfNT : Int → Except String (Option Comment) :=
  fun _ => Except.ok (some noTimeComment)

def emptyStore : StateStore := fun _ _ => none

theorem C5_counterexample :
    (handlerRun hnStr ⟨tfW, cfNT, 1, emptyStr⟩ emptyStore).emits ≠
      (handlerRun hnStr ⟨tfW, cfNT, 2, emptyStr⟩ emptyStore).emits := by decide

/-- C5 (amended): over the same fetched data, the number of emitted
postings (hence `jobCount`) is the same for any two runs; and when
every fetched comment carries a `time` field the emitted records
themselves are identical — only the `posted_at` default (source line
62) depends on the run's current time. -/
theorem C5_amended_purity (tf : Int → Except String (Option Thread))
    (cf : Int → Except String (Option Comment)) (t1 t2 : Int) (iso1 iso2 : String)
    (src : String) (st : StateStore) :
    (handlerRun src ⟨tf, cf, t1, iso1⟩ st).emits.length =
      (handlerRun src ⟨tf, cf, t2, iso2⟩ st).emits.length ∧
    ((∀ (i : Int) (c : Comment), cf i = Except.ok (some c) → c.time ≠ none) →
      (handlerRun src ⟨tf, cf, t1, iso1⟩ st).emits =
        (handlerRun src ⟨tf, cf, t2, iso2⟩ st).emits) := by
  by_cases hs : src ≠ hnStr ∧ src ≠ allStr
  · simp [handlerRun, hs]
  · rw [handlerRun_emits src _ st hs, handlerRun_emits src _ st hs]
    exact ⟨(processThread_snd_now_irrelevant tf cf t1 t2 iso1 iso2 _).2,
      fun h => processThread_fst_time_fixed tf cf t1 t2 iso1 iso2 _ h⟩

def timedComment : Comment :=
  { id := some 4, text := some ("W Corp | Dev"), time := some 55, deleted := false }

def cfW : Int → Except String (Option Comment) :=
  fun _ => Except.ok (some timedComment)

theorem C5_witness :
    (handlerRun hnStr ⟨tfW, cfW, 1, emptyStr⟩ emptyStore).emits.length =
      (handlerRun hnStr ⟨tfW, cfW, 2, emptyStr⟩ emptyStore).emits.length ∧
    (handlerRun hnStr ⟨tfW, cfW, 1, emptyStr⟩ emptyStore).emits =
      (handlerRun hnStr ⟨tfW, cfW, 2, emptyStr⟩ emptyStore).emits :=
  ⟨(C5_amended_purity tfW cfW 1 2 emptyStr emptyStr hnStr emptyStore).1,
   (C5_amended_purity tfW cfW 1 2 emptyStr emptyStr hnStr emptyStore).2 (by
      intro i c hc
      simp only [cfW] at hc
      injection hc with h1
      injection h1 with h2
      rw [← h2]
      decide)⟩

/-! ## C7 -/

/-- The store written by a handler run with a matching source: the
status record of source lines 139–144 under namespace `"sources"`, key
`"hackernews"`. -/
theorem handlerRun_store (src : String) (env : Env) (st : StateStore)
    (h : ¬(src ≠ hnStr ∧ src ≠ allStr)) :
    (handlerRun src env st).store = setState st sourcesStr hnStr
      { lastFetch := env.nowIso
      , jobCount := (handlerRun src env st).emits.length
      , status := if 0 < (handlerRun src env st).emits.length then successStr else errorStr
      , error := if 0 < (handlerRun src env st).emits.length then none
                 else some noJobsStr } := by
  simp [handlerRun, h]

/-- C7: at the end of every run with a matching source a status record
is persisted under namespace `"sources"`, key `"hackernews"`, whose
`lastFetch` is the run's timestamp, whose `jobCount` is the number of
emitted postings, whose status is `"error"` exactly when that count is
zero and `"success"` otherwise, and whose `error` is `none` exactly when
the status is `"success"`. -/
theorem C7_status_record (src : String) (env : Env) (st : StateStore)
    (h : src = hnStr ∨ src = allStr) :
    ∃ rec : StatusRecord,
      (handlerRun src env st).store sourcesStr hnStr = some rec ∧
      rec.lastFetch = env.nowIso ∧
      rec.jobCount = (handlerRun src env st).emits.length ∧
      (rec.status = errorStr ↔ rec.jobCount = 0) ∧
      (rec.status = successStr ↔ rec.jobCount ≠ 0) ∧
      (rec.error = none ↔ rec.status = successStr) := by
  have hneg : ¬(src ≠ hnStr ∧ src ≠ allStr) := by
    rcases h with h | h <;> simp [h]
  rw [handlerRun_store src env st hneg]
  refine ⟨{ lastFetch := env.nowIso
          , jobCount := (handlerRun src env st).emits.length
          , status := if 0 < (handlerRun src env st).emits.length then successStr else errorStr
          , error := if 0 < (handlerRun src env st).emits.length then none
                     else some noJobsStr }
        , by simp [setState], rfl, rfl, ?_, ?_, ?_⟩
  · dsimp only
    by_cases hn : 0 < (handlerRun src env st).emits.length
    · rw [if_pos hn]
      constructor
      · intro hx
        exact absurd hx (by decide)
      · intro hx
        exact absurd hx (by omega)
    · rw [if_neg hn]
      exact ⟨fun _ => by omega, fun _ => rfl⟩
  · dsimp only
    by_cases hn : 0 < (handlerRun src env st).emits.length
    · rw [if_pos hn]
      exact ⟨fun _ => by omega, fun _ => rfl⟩
    · rw [if_neg hn]
      constructor
      · intro hx
        exact absurd hx (by decide)
      · intro hx
        exact absurd (by omega : (handlerRun src env st).emits.length = 0) hx
  · dsimp only
    by_cases hn : 0 < (handlerRun src env st).emits.length
    · rw [if_pos hn, if_pos hn]
      exact ⟨fun _ => rfl, fun _ => rfl⟩
    · rw [if_neg hn, if_neg hn]
      constructor
      · intro hx
        exact absurd hx (by simp)
      · intro hx
        exact absurd hx (by decide)

def envW : Env := { threadFetch := tfW, commentFetch := cfW, now := 1, nowIso := emptyStr }

theorem C7_witness :
    ∃ rec : StatusRecord,
      (handlerRun allStr envW emptyStore).store sourcesStr hnStr = some rec ∧
      rec.lastFetch = emptyStr ∧
      rec.jobCount = (handlerRun allStr envW emptyStore).emits.length ∧
      (rec.status = errorStr ↔ rec.jobCount = 0) ∧
      (rec.status = successStr ↔ rec.jobCount ≠ 0) ∧
      (rec.error = none ↔ rec.status = successStr) :=
  C7_status_record allStr envW emptyStore (Or.inr rfl)

/-! ## C8 -/

/-- C8: for a trigger whose source is neither `"hackernews"` nor
`"all"` the handler does no work (source lines 69–72): nothing is
fetched, nothing is emitted, and the state store is returned
unchanged. -/
theorem C8_no_work (src : String) (env : Env) (st : StateStore)
    (h1 : src ≠ hnStr) (h2 : src ≠ allStr) :
    handlerRun src env st =
      { emits := [], store := st, threadReqs := [], commentReqs := [] } := by
  simp [handlerRun, h1, h2]

def otherSrc : String := "linkedin"

theorem C8_witness :
    handlerRun otherSrc envW emptyStore =
      { emits := [], store := emptyStore, threadReqs := [], commentReqs := [] } :=
  C8_no_work otherSrc envW emptyStore (by decide) (by decide)

/-! ## C9 -/

theorem handlerRun_reqs (src : String) (env : Env) (st : StateStore)
    (h : ¬(src ≠ hnStr ∧ src ≠ allStr)) :
    (handlerRun src env st).threadReqs = fetchedThreadIds ∧
    (handlerRun src env st).commentReqs = (processThread env 42575537).2 := by
  simp [handlerRun, h, fetchedThreadIds, WHO_IS_HIRING_THREADS]

theorem processThread_bounds (env : Env) (tid : Int) :
    (processThread env tid).1.length ≤ (processThread env tid).2.length ∧
    (processThread env tid).2.length ≤ 30 := by
  rcases h : env.threadFetch tid with e | ot
  · simp [processThread, h]
  · rcases ot with _ | t
    · simp [processThread, h]
    · rcases hk : t.kids with _ | kids
      · simp [processThread, h, hk]
      · simp only [processThread, h, hk]
        constructor
        · calc (emittedJobs env.now ((kids.take 30).map env.commentFetch)).length
              ≤ ((kids.take 30).map env.commentFetch).length :=
                List.length_filterMap_le _ _
            _ = (kids.take 30).length := by simp
        · exact List.length_take_le _ _

/-- C9: every run with a matching source fetches exactly one discussion
thread and at most 30 child comments, and both the number of emitted
postings and the persisted `jobCount` are at most 30. -/
theorem C9_bounded (src : String) (env : Env) (st : StateStore)
    (h : src = hnStr ∨ src = allStr) :
    (handlerRun src env st).threadReqs.length = 1 ∧
    (handlerRun src env st).commentReqs.length ≤ 30 ∧
    (handlerRun src env st).emits.length ≤ 30 ∧
    (∀ rec : StatusRecord,
      (handlerRun src env st).store sourcesStr hnStr = some rec →
        rec.jobCount ≤ 30) := by
  have hneg : ¬(src ≠ hnStr ∧ src ≠ allStr) := by
    rcases h with h | h <;> simp [h]
  obtain ⟨hreq1, hreq2⟩ := handlerRun_reqs src env st hneg
  have hemits := handlerRun_emits src env st hneg
  obtain ⟨hb1, hb2⟩ := processThread_bounds env 42575537
  refine ⟨?_, ?_, ?_, ?_⟩
  · rw [hreq1]
    rfl
  · rw [hreq2]
    exact hb2
  · rw [hemits]
    omega
  · intro rec hrec
    rw [handlerRun_store src env st hneg] at hrec
    simp only [setState, and_self, if_true, Option.some.injEq] at hrec
    rw [← hrec]
    dsimp only
    rw [hemits]
    omega

theorem C9_witness :
    (handlerRun hnStr envW emptyStore).threadReqs.length = 1 ∧
    (handlerRun hnStr envW emptyStore).commentReqs.length ≤ 30 ∧
    (handlerRun hnStr envW emptyStore).emits.length ≤ 30 ∧
    (∀ rec : StatusRecord,
      (handlerRun hnStr envW emptyStore).store sourcesStr hnStr = some rec →
        rec.jobCount ≤ 30) :=
  C9_bounded hnStr envW emptyStore (Or.inl rfl)

end JobAggregator
